import Mathlib

/-!
# Tic Tac Toe bot: the game core (`game/game.go`) and its move tokens

A shallow embedding of the Go package `game` (type `TicTacToeGame` with
`NewGame`, `GetMessageText`, `GetKeyBoard`, `ProcessMove`, `checkForTie`,
`checkForWin`, `equals`) together with the two `fmt` routines the package
relies on for its move tokens (`Sprintf` and `Sscanf` with `"%d_%d_%d"`).

Conventions of the embedding

* Go `int` is a 64-bit two's complement integer.  Values are carried as `Int`;
  the arithmetic that can leave the range (`CurrentTurn++`, `row-1`, `col-1`)
  goes through `wrapInt`.  `%` is Go's truncated remainder (`Int.tmod`).
* A pointer `*tgbotapi.User` is an `Option User`; dereferencing `none` is the
  run-time panic `nilDereference`.
* A fixed-size Go array is a record of its elements; indexing it with a run-time
  integer is bounds-checked (`idx2`, `idx3`) and panics with `indexOutOfRange`.
* `ProcessMove` mutates its receiver in place.  Its model returns an `Outcome`:
  either the normal return (receiver after the call, callback answer) or a panic
  (receiver as it was when the panic was raised, and the kind of panic).
* Logging (`fmt.Printf`, `log.Printf`, `json.MarshalIndent` for the log line)
  has no effect on the game and is left out.
-/

namespace TicTacToe

/-! ## Go run-time model -/

/-- Go run-time panics the game code can raise. -/
inductive RuntimeError
  | nilDereference
  | indexOutOfRange
deriving DecidableEq, Repr

/-- Largest value of a Go `int` (64 bit). -/
def maxInt : Int := 9223372036854775807

/-- Smallest value of a Go `int` (64 bit). -/
def minInt : Int := -9223372036854775808

/-- Two's complement wrap-around of a mathematical integer into the range of Go `int`. -/
def wrapInt (x : Int) : Int :=
  (x + 9223372036854775808) % 18446744073709551616 - 9223372036854775808

/-- Go remainder `a % b` on `int`: truncated towards zero, sign of the dividend. -/
def goMod (a b : Int) : Int := Int.tmod a b

/-- Go array of length 3. -/
structure Arr3 (α : Type) where
  e0 : α
  e1 : α
  e2 : α
deriving DecidableEq, Repr

/-- Go array of length 2. -/
structure Arr2 (α : Type) where
  e0 : α
  e1 : α
deriving DecidableEq, Repr

/-- Read an element of a length-3 array at an index known to be in range. -/
def Arr3.get {α : Type} (a : Arr3 α) : Fin 3 → α
  | 0 => a.e0
  | 1 => a.e1
  | 2 => a.e2

/-- Write an element of a length-3 array at an index known to be in range. -/
def Arr3.set {α : Type} (a : Arr3 α) (i : Fin 3) (v : α) : Arr3 α :=
  match i with
  | 0 => { a with e0 := v }
  | 1 => { a with e1 := v }
  | 2 => { a with e2 := v }

/-- Read an element of a length-2 array at an index known to be in range. -/
def Arr2.get {α : Type} (a : Arr2 α) : Fin 2 → α
  | 0 => a.e0
  | 1 => a.e1

/-- The index range of `for i := 0; i < 3; i++`. -/
def range3 : List (Fin 3) := [0, 1, 2]

/-- Bounds check of a run-time index into an array of length 3. -/
def idx3 (i : Int) : Option (Fin 3) :=
  if i = 0 then some 0 else if i = 1 then some 1 else if i = 2 then some 2 else none

/-- Bounds check of a run-time index into an array of length 2. -/
def idx2 (i : Int) : Option (Fin 2) :=
  if i = 0 then some 0 else if i = 1 then some 1 else none

/-! ## `fmt.Sprintf("%d_%d_%d", …)` and `fmt.Sscanf(…, "%d_%d_%d", …)` -/

/-- The decimal digit character of a number below ten. -/
def digitChar (d : Nat) : Char := Char.ofNat (48 + d)

/-- Decimal digits of `n`, most significant first, prepended to `ds`
(`fuel` bounds the number of digits). -/
def natDigits : Nat → Nat → List Char → List Char
  | 0, _, ds => ds
  | fuel + 1, n, ds =>
    if n / 10 = 0 then digitChar (n % 10) :: ds
    else natDigits fuel (n / 10) (digitChar (n % 10) :: ds)

/-- The verb `%d` of `fmt.Sprintf` applied to an `int`. -/
def fmtInt (x : Int) : List Char :=
  if x < 0 then '-' :: natDigits (x.natAbs + 1) x.natAbs []
  else natDigits (x.natAbs + 1) x.natAbs []

/-- Model of `fmt.Sprintf("%d_%d_%d", a, b, c)`. -/
def Sprintf (a b c : Int) : String :=
  String.mk (fmtInt a ++ '_' :: (fmtInt b ++ '_' :: fmtInt c))

/-- White space in the sense of `fmt` scanning (table `space` of `fmt/scan.go`),
the newline excluded. -/
def isScanSpace (c : Char) : Bool :=
  let n := c.toNat
  n = 0x09 || n = 0x0b || n = 0x0c || n = 0x0d || n = 0x20 || n = 0x85 || n = 0xa0
    || n = 0x1680 || (0x2000 ≤ n && n ≤ 0x200a) || n = 0x2028 || n = 0x2029
    || n = 0x202f || n = 0x205f || n = 0x3000

/-- Model of `(*ss).SkipSpace` for `Sscanf`: skips white space; a newline is the scan
error "unexpected newline" (`none`). -/
def skipSpace : List Char → Option (List Char)
  | [] => some []
  | c :: cs =>
    if c = '\n' then none
    else if isScanSpace c then skipSpace cs
    else some (c :: cs)

/-- The longest run of decimal digits at the head of the input, and the rest. -/
def spanDigits : List Char → List Char × List Char
  | [] => ([], [])
  | c :: cs =>
    if c.isDigit then ((spanDigits cs).1.cons c, (spanDigits cs).2)
    else ([], c :: cs)

/-- Value of a string of decimal digits. -/
def digitsValue (ds : List Char) : Nat :=
  ds.foldl (fun acc c => acc * 10 + (c.toNat - 48)) 0

/-- Model of `(*ss).scanInt('d', 64)`: skip space, optional sign, at least one digit,
`strconv.ParseInt` in base 10 with 64 bits.  `none` is a scan error. -/
def scanInt (input : List Char) : Option (Int × List Char) :=
  match skipSpace input with
  | none => none
  | some [] => none
  | some (c :: cs) =>
    let neg : Bool := c = '-'
    let body := if c = '+' ∨ c = '-' then cs else c :: cs
    let sp := spanDigits body
    if sp.1 = [] then none
    else
      let v : Int := if neg then -(digitsValue sp.1 : Int) else (digitsValue sp.1 : Int)
      if minInt ≤ v ∧ v ≤ maxInt then some (v, sp.2) else none

/-- The literal `_` of the format: the next input character must be `_`. -/
def expectUnderscore : List Char → Option (List Char)
  | '_' :: cs => some cs
  | _ => none

/-- Model of `var a, b, c int; fmt.Sscanf(data, "%d_%d_%d", &a, &b, &c)` with the error
result dropped, as both callers do: scanning stops at the first error and the
variables not yet assigned keep their zero value. -/
def Sscanf (data : String) : Int × Int × Int :=
  match scanInt data.data with
  | none => (0, 0, 0)
  | some (a, r1) =>
    match expectUnderscore r1 with
    | none => (a, 0, 0)
    | some r2 =>
      match scanInt r2 with
      | none => (a, 0, 0)
      | some (b, r3) =>
        match expectUnderscore r3 with
        | none => (a, b, 0)
        | some r4 =>
          match scanInt r4 with
          | none => (a, b, 0)
          | some (c, _) => (a, b, c)

/-! ## Data model of `game.go` -/

/-- Cell mark: `type gameSpace int`. -/
abbrev gameSpace := Int

/-- Constant `Host gameSpace = iota`. -/
def Host : gameSpace := 0

/-- Constant `Guest`. -/
def Guest : gameSpace := 1

/-- Constant `Null`: the empty cell. -/
def Null : gameSpace := 2

/-- The fields of `tgbotapi.User` the game reads. -/
structure User where
  ID : Int
  UserName : String
deriving DecidableEq, Repr

/-- The fields of `tgbotapi.CallbackQuery` the game reads. -/
structure CallbackQuery where
  ID : String
  From : Option User
  Data : String
deriving DecidableEq, Repr

/-- Result of `tgbotapi.NewCallback(id, text)`. -/
structure CallbackConfig where
  CallbackQueryID : String
  Text : String
deriving DecidableEq, Repr

/-- Result of `tgbotapi.NewInlineKeyboardButtonData(text, data)`. -/
structure InlineKeyboardButton where
  Text : String
  CallbackData : String
deriving DecidableEq, Repr

/-- The struct `TicTacToeGame`. -/
structure TicTacToeGame where
  Grid : Arr3 (Arr3 gameSpace)
  Players : Arr2 (Option User)
  CurrentTurn : Int
  GameID : Int
deriving DecidableEq, Repr

/-- Body of `NewCallback`. -/
def NewCallback (id text : String) : CallbackConfig :=
  { CallbackQueryID := id, Text := text }

/-- Method `getSymbol`. -/
def getSymbol (btn : gameSpace) : String :=
  if btn = Host then "❎" else if btn = Guest then "⭕" else " "

/-- Function `NewGame`. -/
def NewGame (creator : Option User) (gameID : Int) : TicTacToeGame :=
  { Grid := ⟨⟨Null, Null, Null⟩, ⟨Null, Null, Null⟩, ⟨Null, Null, Null⟩⟩
    Players := ⟨creator, none⟩
    CurrentTurn := 1
    GameID := gameID }

/-- The expression `game.Grid[row][col]` for indices in range. -/
def cell (game : TicTacToeGame) (row col : Fin 3) : gameSpace :=
  (game.Grid.get row).get col

/-- The assignment `game.Grid[row][col] = v` for indices in range. -/
def setCell (game : TicTacToeGame) (row col : Fin 3) (v : gameSpace) : TicTacToeGame :=
  { game with Grid := game.Grid.set row ((game.Grid.get row).set col v) }

/-- Function `equals` (variadic). -/
def equals : List gameSpace → Bool
  | [] => true
  | firstValue :: rest =>
    if firstValue = Null then false
    else rest.all (fun val => !(val != firstValue))

/-- Method `checkForTie`. -/
def checkForTie (game : TicTacToeGame) : Bool :=
  !(range3.any fun row => range3.any fun col =>
      cell game row col == Null)

/-- Method `checkForWin`. -/
def checkForWin (game : TicTacToeGame) : Bool :=
  if range3.any fun row =>
      equals [cell game row 0, cell game row 1, cell game row 2] then true
  else if range3.any fun col =>
      equals [cell game 0 col, cell game 1 col, cell game 2 col] then true
  else if equals [cell game 0 0, cell game 1 1, cell game 2 2] then true
  else if equals [cell game 0 2, cell game 1 1, cell game 2 0] then true
  else false

/-- Dereference of a user pointer. -/
def deref (p : Option User) : Except RuntimeError User :=
  match p with
  | some u => .ok u
  | none => .error .nilDereference

/-- The expression `game.Players[i]` with a run-time index. -/
def playerAt (game : TicTacToeGame) (i : Int) : Except RuntimeError (Option User) :=
  match idx2 i with
  | some k => .ok (game.Players.get k)
  | none => .error .indexOutOfRange

/-- Method `GetMessageText`. -/
def GetMessageText (game : TicTacToeGame) : Except RuntimeError String :=
  if game.Players.e1 = none then do
    let p0 ← deref game.Players.e0
    pure ("Waiting for the second player to join...\n\n" ++ p0.UserName
      ++ " is waiting for an opponent.")
  else if checkForWin game then do
    let w ← playerAt game (goMod game.CurrentTurn 2)
    let winner ← deref w
    let p0 ← deref game.Players.e0
    let p1 ← deref game.Players.e1
    pure ("🎉 " ++ winner.UserName ++ " wins! 🎉\n\n" ++ p0.UserName ++ " vs " ++ p1.UserName)
  else if checkForTie game then do
    let p0 ← deref game.Players.e0
    let p1 ← deref game.Players.e1
    pure ("It's a tie!\n\n" ++ p0.UserName ++ " vs " ++ p1.UserName)
  else do
    let c ← playerAt game (goMod game.CurrentTurn 2)
    let currentPlayer ← deref c
    let p0 ← deref game.Players.e0
    let p1 ← deref game.Players.e1
    pure ("It's " ++ currentPlayer.UserName ++ "'s turn\n\n" ++ p0.UserName ++ " vs "
      ++ p1.UserName)

/-- Method `GetKeyBoard`: the three rows of buttons of the inline keyboard. -/
def GetKeyBoard (game : TicTacToeGame) : List (List InlineKeyboardButton) :=
  let buttons : List InlineKeyboardButton :=
    range3.flatMap fun row => range3.map fun col =>
      { Text := getSymbol (cell game row col)
        CallbackData := Sprintf game.GameID ((row.val : Int) + 1) ((col.val : Int) + 1) }
  [buttons.take 3, (buttons.drop 3).take 3, (buttons.drop 6).take 3]

/-- How a call of `ProcessMove` ends. -/
inductive Outcome
  /-- Normal return: the receiver after the call and the returned callback answer. -/
  | ret (game : TicTacToeGame) (answer : CallbackConfig)
  /-- Run-time panic: the receiver as the panic left it, and the kind of panic. -/
  | panic (game : TicTacToeGame) (err : RuntimeError)
deriving DecidableEq, Repr

/-- The receiver as a call of `ProcessMove` left it. -/
def Outcome.game : Outcome → TicTacToeGame
  | .ret g _ => g
  | .panic g _ => g

/-- The condition `game.Players[1] == nil && query.From.ID != game.Players[0].ID`. -/
def joinCondition (game : TicTacToeGame) (query : CallbackQuery) : Except RuntimeError Bool :=
  if game.Players.e1 = none then do
    let sender ← deref query.From
    let p0 ← deref game.Players.e0
    return sender.ID != p0.ID
  else return false

/-- The condition `game.Players[game.CurrentTurn%2].ID != query.From.ID`. -/
def notYourTurn (game : TicTacToeGame) (query : CallbackQuery) : Except RuntimeError Bool := do
  let p ← playerAt game (goMod game.CurrentTurn 2)
  let holder ← deref p
  let sender ← deref query.From
  return holder.ID != sender.ID

/-- Lines 106-125 of `ProcessMove`: decode the token and play the cell. -/
def playCell (game : TicTacToeGame) (query : CallbackQuery) : Outcome :=
  let (_, row, col) := Sscanf query.Data
  match idx3 (wrapInt (row - 1)) with
  | none => .panic game .indexOutOfRange
  | some r =>
    match idx3 (wrapInt (col - 1)) with
    | none => .panic game .indexOutOfRange
    | some c =>
      if cell game r c = Null then
        let game1 := setCell game r c (goMod game.CurrentTurn 2)
        if checkForWin game1 then .ret game1 (NewCallback query.ID "")
        else if checkForTie game1 then .ret game1 (NewCallback query.ID "")
        else
          .ret { game1 with CurrentTurn := wrapInt (game1.CurrentTurn + 1) }
            (NewCallback query.ID "")
      else .ret game (NewCallback query.ID "space occupied")

/-- Lines 98-125 of `ProcessMove`: the turn check, then the move. -/
def checkTurn (game : TicTacToeGame) (query : CallbackQuery) : Outcome :=
  match notYourTurn game query with
  | .error e => .panic game e
  | .ok true => .ret game (NewCallback query.ID "not your turn!!")
  | .ok false => playCell game query

/-- Method `ProcessMove`. -/
def ProcessMove (game : TicTacToeGame) (query : CallbackQuery) : Outcome :=
  match joinCondition game query with
  | .error e => .panic game e
  | .ok true => checkTurn { game with Players := { game.Players with e1 := query.From } } query
  | .ok false => checkTurn game query

/-! ## Specification vocabulary -/

/-- A board position (row, column), zero-based. -/
abbrev Pos := Fin 3 × Fin 3

/-- The mark at a position. -/
def markAt (game : TicTacToeGame) (p : Pos) : gameSpace := cell game p.1 p.2

/-- The eight lines of the board: three rows, three columns, two diagonals. -/
def winLines : List (Pos × Pos × Pos) :=
  [((0, 0), (0, 1), (0, 2)), ((1, 0), (1, 1), (1, 2)), ((2, 0), (2, 1), (2, 2)),
   ((0, 0), (1, 0), (2, 0)), ((0, 1), (1, 1), (2, 1)), ((0, 2), (1, 2), (2, 2)),
   ((0, 0), (1, 1), (2, 2)), ((0, 2), (1, 1), (2, 0))]

/-- Reference definition of a win, in the words of the specification: some line has
three equal cells that are not empty. -/
def winReference (game : TicTacToeGame) : Prop :=
  ∃ l ∈ winLines, markAt game l.1 = markAt game l.2.1 ∧ markAt game l.2.1 = markAt game l.2.2
    ∧ markAt game l.1 ≠ Null

/-- The three cells of line `l` all carry mark `k`. -/
def lineOf (game : TicTacToeGame) (k : gameSpace) (l : Pos × Pos × Pos) : Prop :=
  markAt game l.1 = k ∧ markAt game l.2.1 = k ∧ markAt game l.2.2 = k

/-- The board contains a line filled with mark `k`. -/
def hasLineOf (game : TicTacToeGame) (k : gameSpace) : Prop :=
  ∃ l ∈ winLines, lineOf game k l

instance (game : TicTacToeGame) : Decidable (winReference game) := by
  unfold winReference
  infer_instance

instance (game : TicTacToeGame) (k : gameSpace) (l : Pos × Pos × Pos) :
    Decidable (lineOf game k l) := by
  unfold lineOf
  infer_instance

instance (game : TicTacToeGame) (k : gameSpace) : Decidable (hasLineOf game k) := by
  unfold hasLineOf
  infer_instance

/-- Number of marks a cell contributes to the board: 0 for the empty cell, 1 otherwise. -/
def occ (v : gameSpace) : Nat := if v = Null then 0 else 1

/-- Number of occupied cells of the board. -/
def occupied (game : TicTacToeGame) : Nat :=
  occ (cell game 0 0) + occ (cell game 0 1) + occ (cell game 0 2)
    + occ (cell game 1 0) + occ (cell game 1 1) + occ (cell game 1 2)
    + occ (cell game 2 0) + occ (cell game 2 1) + occ (cell game 2 2)

/-- The games that can arise from `NewGame` by calls of `ProcessMove` on the same game
value.  A call that panics is included with the receiver as the panic left it, so the
set also covers a caller that discards the receiver of a panicking call. -/
inductive Reachable : TicTacToeGame → Prop
  | init (creator : User) (gameID : Int) : Reachable (NewGame (some creator) gameID)
  | step {game : TicTacToeGame} (query : CallbackQuery) :
      Reachable game → Reachable (ProcessMove game query).game

/-- Reachability that also records who made the winning move: `ReachableWith game w`
holds when `game` arises from `NewGame` by calls of `ProcessMove` and `w` is the sender
of the call that first produced a winning line (`none` while there has been none). -/
inductive ReachableWith : TicTacToeGame → Option User → Prop
  | init (creator : User) (gameID : Int) : ReachableWith (NewGame (some creator) gameID) none
  | step {game : TicTacToeGame} {w : Option User} (query : CallbackQuery) :
      ReachableWith game w →
      ReachableWith (ProcessMove game query).game
        (if checkForWin game = false ∧ checkForWin (ProcessMove game query).game = true
          then query.From else w)

/-- The game after a list of calls of `ProcessMove`, oldest first. -/
def playAll (game : TicTacToeGame) : List CallbackQuery → TicTacToeGame
  | [] => game
  | query :: rest => playAll (ProcessMove game query).game rest

/-- What holds of every reachable game: slot 0 is bound; while slot 1 is empty the game
is as `NewGame` left it; the turn counter lies between 1 and one more than the number of
occupied cells; every filled line carries the mark of the current turn. -/
structure Inv (game : TicTacToeGame) : Prop where
  creator : ∃ c, game.Players.e0 = some c
  fresh : game.Players.e1 = none →
    game.CurrentTurn = 1 ∧ ∀ i j, cell game i j = Null
  turnLo : 1 ≤ game.CurrentTurn
  turnHi : game.CurrentTurn ≤ (occupied game : Int) + 1
  lines : ∀ k, k ≠ Null → hasLineOf game k → k = goMod game.CurrentTurn 2

/-- The button of a keyboard at row `row` and column `col`, both zero-based. -/
def buttonAt (keyboard : List (List InlineKeyboardButton)) (row col : Fin 3) :
    Option InlineKeyboardButton :=
  match keyboard[row.val]? with
  | some buttons => buttons[col.val]?
  | none => none

/-- A list of characters is the decimal numeral of `n`: not empty, digits only, value `n`. -/
def IsNumeral (ds : List Char) (n : Nat) : Prop :=
  (∃ d rest, d < 10 ∧ ds = digitChar d :: rest) ∧ (∀ c ∈ ds, c.isDigit = true)
    ∧ digitsValue ds = n

/-- The game after the mark of the current turn has been put on cell (r, c). -/
def placeMark (game : TicTacToeGame) (r c : Fin 3) : TicTacToeGame :=
  setCell game r c (goMod game.CurrentTurn 2)

/-- The game after `CurrentTurn++`. -/
def nextTurn (game : TicTacToeGame) : TicTacToeGame :=
  { game with CurrentTurn := wrapInt (game.CurrentTurn + 1) }

/-- The game after slot 1 has been bound to the sender of a query. -/
def bindGuest (game : TicTacToeGame) (query : CallbackQuery) : TicTacToeGame :=
  { game with Players := { game.Players with e1 := query.From } }

/-! ## Example data -/

/-- The creator of the example games. -/
def alice : User := { ID := 10, UserName := "Alice" }

/-- The opponent in the example games. -/
def bob : User := { ID := 20, UserName := "Bob" }

/-- A button press by `sender` carrying the token `data`. -/
def press (sender : User) (data : String) : CallbackQuery :=
  { ID := "q", From := some sender, Data := data }

/-- Bob (slot 1, mark `Guest`) fills the top row while Alice (slot 0, mark `Host`) plays
two cells of the middle row. -/
def wonGame : TicTacToeGame :=
  playAll (NewGame (some alice) 1)
    [press bob "1_1_1", press alice "1_2_1", press bob "1_1_2", press alice "1_2_2",
     press bob "1_1_3"]

/-- Nine alternating moves that fill the board without a line. -/
def tiedGame : TicTacToeGame :=
  playAll (NewGame (some alice) 1)
    [press bob "1_1_1", press alice "1_1_2", press bob "1_1_3", press alice "1_2_2",
     press bob "1_2_1", press alice "1_2_3", press bob "1_3_2", press alice "1_3_1",
     press bob "1_3_3"]


/-! ## Arrays and the board -/

theorem fin3_cases (i : Fin 3) : i = 0 ∨ i = 1 ∨ i = 2 := by
  revert i; decide

theorem Arr3.get_set {α : Type} (a : Arr3 α) (i j : Fin 3) (v : α) :
    (a.set i v).get j = if j = i then v else a.get j := by
  rcases fin3_cases i with rfl | rfl | rfl <;> rcases fin3_cases j with rfl | rfl | rfl <;>
    simp [Arr3.set, Arr3.get]

theorem cell_setCell (game : TicTacToeGame) (r c i j : Fin 3) (v : gameSpace) :
    cell (setCell game r c v) i j = if i = r ∧ j = c then v else cell game i j := by
  unfold cell setCell
  simp only [Arr3.get_set]
  by_cases hi : i = r
  · subst hi; simp [Arr3.get_set]
  · simp [hi]

/-! ## Win detection -/

theorem line_iff (a b c : Int) :
    (¬a = 2 ∧ b = a ∧ c = a) ↔ (a = b ∧ b = c ∧ ¬a = 2) := by
  omega

theorem checkForWin_spec (game : TicTacToeGame) :
    checkForWin game = true ↔ winReference game := by
  simp only [checkForWin, winReference, winLines, markAt, range3, equals, List.any_cons,
    List.any_nil, List.all_cons, List.all_nil, List.mem_cons, List.mem_singleton,
    exists_eq_or_imp, exists_eq_left, List.not_mem_nil, false_and, exists_false, or_false]
  generalize cell game 0 0 = a
  generalize cell game 0 1 = b
  generalize cell game 0 2 = c
  generalize cell game 1 0 = d
  generalize cell game 1 1 = e
  generalize cell game 1 2 = f
  generalize cell game 2 0 = x
  generalize cell game 2 1 = y
  generalize cell game 2 2 = z
  simp only [Bool.or_false, Bool.and_true, bne_iff_ne, ne_eq, Bool.not_eq_true',
    Bool.not_not, Bool.if_false_left, Bool.if_true_left, Bool.or_eq_true, Bool.and_eq_true,
    decide_eq_true_eq, Bool.not_eq_true, decide_eq_false_iff_not, ite_eq_left_iff,
    Bool.decide_eq_true, Bool.ite_eq_true_distrib, if_false_left, if_true_left]
  simp only [bne_eq_false_iff_eq, Null, line_iff, or_assoc]

/-! ## Move tokens: printing and scanning -/

theorem digitChar_facts : ∀ d, d < 10 →
    (digitChar d).isDigit = true ∧ (digitChar d).toNat - 48 = d ∧ digitChar d ≠ '\n'
      ∧ isScanSpace (digitChar d) = false ∧ digitChar d ≠ '+' ∧ digitChar d ≠ '-' := by
  decide

theorem natDigits_acc (fuel : Nat) : ∀ (n : Nat) (ds : List Char),
    natDigits fuel n ds = natDigits fuel n [] ++ ds := by
  induction fuel with
  | zero => intro n ds; simp [natDigits]
  | succ fuel ih =>
    intro n ds
    unfold natDigits
    by_cases h : n / 10 = 0
    · simp [h]
    · simp only [h, if_false]
      rw [ih (n / 10) (digitChar (n % 10) :: ds), ih (n / 10) [digitChar (n % 10)]]
      simp

theorem digitsValue_snoc (ds : List Char) (c : Char) :
    digitsValue (ds ++ [c]) = digitsValue ds * 10 + (c.toNat - 48) := by
  simp [digitsValue, List.foldl_append]

theorem natDigits_numeral (fuel : Nat) : ∀ n, n < fuel → IsNumeral (natDigits fuel n []) n := by
  induction fuel with
  | zero => intro n h; omega
  | succ fuel ih =>
    intro n hn
    have hd := digitChar_facts (n % 10) (Nat.mod_lt _ (by decide))
    unfold natDigits
    by_cases h : n / 10 = 0
    · simp only [h, if_true]
      refine ⟨⟨n % 10, [], Nat.mod_lt _ (by decide), rfl⟩, ?_, ?_⟩
      · intro c hc
        simp only [List.mem_singleton] at hc
        rw [hc]; exact hd.1
      · simp only [digitsValue, List.foldl_cons, List.foldl_nil, hd.2.1]
        omega
    · simp only [h, if_false]
      rw [natDigits_acc]
      have hlt : n / 10 < fuel := by omega
      obtain ⟨⟨d, rest, hd10, hrest⟩, hall, hval⟩ := ih (n / 10) hlt
      refine ⟨⟨d, rest ++ [digitChar (n % 10)], hd10, by rw [hrest]; simp⟩, ?_, ?_⟩
      · intro c hc
        rcases List.mem_append.mp hc with hc | hc
        · exact hall c hc
        · simp only [List.mem_singleton] at hc
          rw [hc]; exact hd.1
      · rw [digitsValue_snoc, hval, hd.2.1]
        omega

theorem spanDigits_append (ds rest : List Char) (hall : ∀ c ∈ ds, c.isDigit = true)
    (hrest : ∀ c r, rest = c :: r → c.isDigit = false) :
    spanDigits (ds ++ rest) = (ds, rest) := by
  induction ds with
  | nil =>
    cases rest with
    | nil => rfl
    | cons c r => simp [spanDigits, hrest c r rfl]
  | cons d ds ih =>
    have hd : d.isDigit = true := hall d (List.mem_cons_self _ _)
    have := ih (fun c hc => hall c (List.mem_cons_of_mem _ hc))
    simp [spanDigits, hd, this]

theorem scanInt_unsigned (c : Char) (cs : List Char) (h1 : c ≠ '\n')
    (h2 : isScanSpace c = false) (h3 : c ≠ '+') (h4 : c ≠ '-') :
    scanInt (c :: cs) =
      if (spanDigits (c :: cs)).1 = [] then none
      else if minInt ≤ (digitsValue (spanDigits (c :: cs)).1 : Int)
          ∧ (digitsValue (spanDigits (c :: cs)).1 : Int) ≤ maxInt
        then some ((digitsValue (spanDigits (c :: cs)).1 : Int), (spanDigits (c :: cs)).2)
        else none := by
  have hs : skipSpace (c :: cs) = some (c :: cs) := by simp [skipSpace, h1, h2]
  simp [scanInt, hs, h3, h4]

theorem scanInt_minus (cs : List Char) :
    scanInt ('-' :: cs) =
      if (spanDigits cs).1 = [] then none
      else if minInt ≤ -(digitsValue (spanDigits cs).1 : Int)
          ∧ -(digitsValue (spanDigits cs).1 : Int) ≤ maxInt
        then some (-(digitsValue (spanDigits cs).1 : Int), (spanDigits cs).2)
        else none := by
  have hs : skipSpace ('-' :: cs) = some ('-' :: cs) := by
    have h1 : ('-' : Char) ≠ '\n' := by decide
    have h2 : isScanSpace '-' = false := by decide
    simp [skipSpace, h1, h2]
  simp [scanInt, hs]

/-- Scanning what `%d` printed for an `int` gives the number back and stops right
behind it. -/
theorem scanInt_fmtInt (x : Int) (rest : List Char) (hmin : minInt ≤ x) (hmax : x ≤ maxInt)
    (hrest : ∀ c r, rest = c :: r → c.isDigit = false) :
    scanInt (fmtInt x ++ rest) = some (x, rest) := by
  obtain ⟨⟨d, tl, hd10, htl⟩, hall, hval⟩ :=
    natDigits_numeral (x.natAbs + 1) x.natAbs (Nat.lt_succ_self _)
  have hd := digitChar_facts d hd10
  have hsp := spanDigits_append _ rest hall hrest
  by_cases hx : x < 0
  · simp only [fmtInt, hx, if_true]
    have hval2 : -(digitsValue (natDigits (x.natAbs + 1) x.natAbs []) : Int) = x := by
      rw [hval]; omega
    have hne : natDigits (x.natAbs + 1) x.natAbs [] ≠ [] := by rw [htl]; simp
    rw [List.cons_append, scanInt_minus, hsp]
    simp [hval2, hmin, hmax, hne]
  · simp only [fmtInt, hx, if_false]
    rw [htl] at hsp hval ⊢
    have hval2 : (digitsValue (digitChar d :: tl) : Int) = x := by
      rw [hval]; omega
    rw [List.cons_append] at hsp ⊢
    rw [scanInt_unsigned _ _ hd.2.2.1 hd.2.2.2.1 hd.2.2.2.2.1 hd.2.2.2.2.2, hsp]
    simp [hval2, hmin, hmax]

theorem Sscanf_Sprintf (a b c : Int) (ha : minInt ≤ a ∧ a ≤ maxInt)
    (hb : minInt ≤ b ∧ b ≤ maxInt) (hc : minInt ≤ c ∧ c ≤ maxInt) :
    Sscanf (Sprintf a b c) = (a, b, c) := by
  have hus : ∀ (tl : List Char) (c : Char) (r : List Char),
      '_' :: tl = c :: r → c.isDigit = false := by
    intro tl c r h
    have : c = '_' := (List.cons.inj h).1.symm
    rw [this]; decide
  have h1 := scanInt_fmtInt a ('_' :: (fmtInt b ++ '_' :: fmtInt c)) ha.1 ha.2 (hus _)
  have h2 := scanInt_fmtInt b ('_' :: fmtInt c) hb.1 hb.2 (hus _)
  have h3 := scanInt_fmtInt c [] hc.1 hc.2 (by intro c r h; cases h)
  rw [List.append_nil] at h3
  simp only [Sscanf, Sprintf, h1, expectUnderscore, h2, h3]

theorem keyboard_button (game : TicTacToeGame) (row col : Fin 3) :
    buttonAt (GetKeyBoard game) row col
      = some ⟨getSymbol (cell game row col),
          Sprintf game.GameID ((row.val : Int) + 1) ((col.val : Int) + 1)⟩ := by
  rcases fin3_cases row with rfl | rfl | rfl <;> rcases fin3_cases col with rfl | rfl | rfl <;>
    rfl

/-! ## Integer facts -/

theorem goMod_two_of_nonneg (t : Int) (h : 0 ≤ t) : goMod t 2 = t % 2 := by
  unfold goMod
  exact Int.tmod_eq_emod h (by decide)

theorem goMod_two_cases (t : Int) (h : 0 ≤ t) : goMod t 2 = 0 ∨ goMod t 2 = 1 := by
  rw [goMod_two_of_nonneg t h]
  omega

theorem wrapInt_id (x : Int) (h1 : minInt ≤ x) (h2 : x ≤ maxInt) : wrapInt x = x := by
  unfold wrapInt
  unfold minInt at h1
  unfold maxInt at h2
  omega

theorem idx3_val (r : Fin 3) : idx3 (wrapInt ((r.val : Int) + 1 - 1)) = some r := by
  rcases fin3_cases r with rfl | rfl | rfl <;> decide

theorem inRange_fin (row : Int) (h1 : 1 ≤ row) (h3 : row ≤ 3) :
    ∃ r : Fin 3, row = (r.val : Int) + 1 := by
  have h : row = 1 ∨ row = 2 ∨ row = 3 := by omega
  rcases h with h | h | h
  · exact ⟨0, by rw [h]; rfl⟩
  · exact ⟨1, by rw [h]; rfl⟩
  · exact ⟨2, by rw [h]; rfl⟩

/-! ## The control flow of `ProcessMove` -/

theorem playCell_cases (game : TicTacToeGame) (query : CallbackQuery) :
    playCell game query = .panic game .indexOutOfRange
    ∨ (∃ r c, idx3 (wrapInt ((Sscanf query.Data).2.1 - 1)) = some r
        ∧ idx3 (wrapInt ((Sscanf query.Data).2.2 - 1)) = some c
        ∧ cell game r c ≠ Null
        ∧ playCell game query = .ret game (NewCallback query.ID "space occupied"))
    ∨ (∃ r c, idx3 (wrapInt ((Sscanf query.Data).2.1 - 1)) = some r
        ∧ idx3 (wrapInt ((Sscanf query.Data).2.2 - 1)) = some c
        ∧ cell game r c = Null
        ∧ (checkForWin (placeMark game r c) = true ∨ checkForTie (placeMark game r c) = true)
        ∧ playCell game query = .ret (placeMark game r c) (NewCallback query.ID ""))
    ∨ (∃ r c, idx3 (wrapInt ((Sscanf query.Data).2.1 - 1)) = some r
        ∧ idx3 (wrapInt ((Sscanf query.Data).2.2 - 1)) = some c
        ∧ cell game r c = Null
        ∧ checkForWin (placeMark game r c) = false ∧ checkForTie (placeMark game r c) = false
        ∧ playCell game query
            = .ret (nextTurn (placeMark game r c)) (NewCallback query.ID "")) := by
  unfold playCell
  obtain ⟨gid, row, col⟩ := Sscanf query.Data
  simp only
  cases hr : idx3 (wrapInt (row - 1)) with
  | none => left; rfl
  | some r =>
    cases hc : idx3 (wrapInt (col - 1)) with
    | none => left; rfl
    | some c =>
      right
      by_cases hcell : cell game r c = Null
      · right
        by_cases hw : checkForWin (placeMark game r c) = true
        · left
          refine ⟨r, c, rfl, rfl, hcell, Or.inl hw, ?_⟩
          show (if cell game r c = Null then
              if checkForWin (placeMark game r c) = true then _ else _ else _) = _
          rw [if_pos hcell, if_pos hw]
          rfl
        · by_cases ht : checkForTie (placeMark game r c) = true
          · left
            refine ⟨r, c, rfl, rfl, hcell, Or.inr ht, ?_⟩
            show (if cell game r c = Null then
                if checkForWin (placeMark game r c) = true then _
                else if checkForTie (placeMark game r c) = true then _ else _ else _) = _
            rw [if_pos hcell, if_neg hw, if_pos ht]
            rfl
          · right
            refine ⟨r, c, rfl, rfl, hcell, by simpa using hw, by simpa using ht, ?_⟩
            show (if cell game r c = Null then
                if checkForWin (placeMark game r c) = true then _
                else if checkForTie (placeMark game r c) = true then _ else _ else _) = _
            rw [if_pos hcell, if_neg hw, if_neg ht]
            rfl
      · left
        refine ⟨r, c, rfl, rfl, hcell, ?_⟩
        show (if cell game r c = Null then _ else _) = _
        rw [if_neg hcell]

theorem checkTurn_cases (game : TicTacToeGame) (query : CallbackQuery) :
    (∃ e, checkTurn game query = .panic game e)
    ∨ checkTurn game query = .ret game (NewCallback query.ID "not your turn!!")
    ∨ (∃ p s, playerAt game (goMod game.CurrentTurn 2) = .ok (some p) ∧ query.From = some s
        ∧ p.ID = s.ID ∧ checkTurn game query = playCell game query) := by
  unfold checkTurn notYourTurn
  cases hp : playerAt game (goMod game.CurrentTurn 2) with
  | error e => left; exact ⟨e, rfl⟩
  | ok p =>
    cases p with
    | none => left; exact ⟨.nilDereference, rfl⟩
    | some p =>
      cases hs : query.From with
      | none => left; exact ⟨.nilDereference, rfl⟩
      | some s =>
        by_cases hid : p.ID = s.ID
        · right; right
          have hb : (p.ID != s.ID) = false := by simpa using hid
          refine ⟨p, s, rfl, rfl, hid, ?_⟩
          simp [deref, bind, Except.bind, pure, Except.pure, hb]
        · right; left
          have hb : (p.ID != s.ID) = true := by simpa using hid
          simp [deref, bind, Except.bind, pure, Except.pure, hb]

theorem ProcessMove_cases (game : TicTacToeGame) (query : CallbackQuery) :
    (∃ e, ProcessMove game query = .panic game e)
    ∨ ((game.Players.e1 ≠ none ∨ ∃ s c, query.From = some s ∧ game.Players.e0 = some c
          ∧ s.ID = c.ID)
        ∧ ProcessMove game query = checkTurn game query)
    ∨ (∃ s c, game.Players.e1 = none ∧ query.From = some s ∧ game.Players.e0 = some c
        ∧ s.ID ≠ c.ID ∧ ProcessMove game query = checkTurn (bindGuest game query) query) := by
  unfold ProcessMove joinCondition
  by_cases h1 : game.Players.e1 = none
  · rw [if_pos h1]
    cases hs : query.From with
    | none => left; exact ⟨.nilDereference, rfl⟩
    | some s =>
      cases hc : game.Players.e0 with
      | none => left; exact ⟨.nilDereference, rfl⟩
      | some c =>
        by_cases hid : s.ID = c.ID
        · right; left
          have hb : (s.ID != c.ID) = false := by simpa using hid
          refine ⟨Or.inr ⟨s, c, rfl, rfl, hid⟩, ?_⟩
          simp [deref, bind, Except.bind, pure, Except.pure, hb]
        · right; right
          have hb : (s.ID != c.ID) = true := by simpa using hid
          refine ⟨s, c, h1, rfl, rfl, hid, ?_⟩
          simp [deref, bind, Except.bind, pure, Except.pure, hb, bindGuest, hs, hc]
  · right; left
    refine ⟨Or.inl h1, ?_⟩
    rw [if_neg h1]
    rfl

/-! ## Lines and occupied cells under a move -/

theorem occupied_le_nine (game : TicTacToeGame) : occupied game ≤ 9 := by
  have h : ∀ v, occ v ≤ 1 := by
    intro v; unfold occ; split <;> omega
  unfold occupied
  have h1 := h (cell game 0 0)
  have h2 := h (cell game 0 1)
  have h3 := h (cell game 0 2)
  have h4 := h (cell game 1 0)
  have h5 := h (cell game 1 1)
  have h6 := h (cell game 1 2)
  have h7 := h (cell game 2 0)
  have h8 := h (cell game 2 1)
  have h9 := h (cell game 2 2)
  omega

theorem occupied_setCell (game : TicTacToeGame) (r c : Fin 3) (v : gameSpace)
    (hcell : cell game r c = Null) (hv : v ≠ Null) :
    occupied (setCell game r c v) = occupied game + 1 := by
  have hv1 : occ v = 1 := by simp [occ, hv]
  have h0 : occ (cell game r c) = 0 := by simp [occ, hcell]
  unfold occupied
  simp only [cell_setCell]
  rcases fin3_cases r with rfl | rfl | rfl <;> rcases fin3_cases c with rfl | rfl | rfl <;>
    simp at h0 ⊢ <;> omega

theorem lineOf_setCell (game : TicTacToeGame) (r c : Fin 3) (v k : gameSpace)
    (l : Pos × Pos × Pos) (h : lineOf (setCell game r c v) k l) :
    k = v ∨ lineOf game k l := by
  unfold lineOf markAt at *
  simp only [cell_setCell] at h
  obtain ⟨h1, h2, h3⟩ := h
  split at h1
  · exact Or.inl h1.symm
  · split at h2
    · exact Or.inl h2.symm
    · split at h3
      · exact Or.inl h3.symm
      · exact Or.inr ⟨h1, h2, h3⟩

theorem hasLineOf_setCell (game : TicTacToeGame) (r c : Fin 3) (v k : gameSpace)
    (h : hasLineOf (setCell game r c v) k) : k = v ∨ hasLineOf game k := by
  obtain ⟨l, hl, hline⟩ := h
  rcases lineOf_setCell game r c v k l hline with h | h
  · exact Or.inl h
  · exact Or.inr ⟨l, hl, h⟩

theorem hasLineOf_win (game : TicTacToeGame) (k : gameSpace) (hk : k ≠ Null)
    (h : hasLineOf game k) : checkForWin game = true := by
  rw [checkForWin_spec]
  obtain ⟨l, hl, h1, h2, h3⟩ := h
  exact ⟨l, hl, by rw [h1, h2], by rw [h2, h3], by rw [h1]; exact hk⟩

theorem win_hasLineOf (game : TicTacToeGame) (h : checkForWin game = true) :
    ∃ k, k ≠ Null ∧ hasLineOf game k := by
  rw [checkForWin_spec] at h
  obtain ⟨l, hl, h1, h2, h3⟩ := h
  exact ⟨markAt game l.1, h3, l, hl, rfl, h1.symm, by rw [← h2, ← h1]⟩

theorem lineOf_keep (game : TicTacToeGame) (r c : Fin 3) (v k : gameSpace)
    (l : Pos × Pos × Pos) (hk : k ≠ Null) (hcell : cell game r c = Null)
    (h : lineOf game k l) : lineOf (setCell game r c v) k l := by
  have key : ∀ p : Pos, markAt game p = k → markAt (setCell game r c v) p = k := by
    intro p hp
    unfold markAt at *
    rw [cell_setCell]
    split
    · rename_i hcond
      rw [hcond.1, hcond.2, hcell] at hp
      exact absurd hp.symm hk
    · exact hp
  exact ⟨key _ h.1, key _ h.2.1, key _ h.2.2⟩

theorem win_setCell (game : TicTacToeGame) (r c : Fin 3) (v : gameSpace)
    (hwin : checkForWin game = true) (hcell : cell game r c = Null) :
    checkForWin (setCell game r c v) = true := by
  obtain ⟨k, hk, l, hl, hline⟩ := win_hasLineOf game hwin
  exact hasLineOf_win _ k hk ⟨l, hl, lineOf_keep game r c v k l hk hcell hline⟩

theorem tie_cell (game : TicTacToeGame) (h : checkForTie game = true) (r c : Fin 3) :
    cell game r c ≠ Null := by
  simp only [checkForTie, range3, List.any_cons, List.any_nil, Bool.or_false, Bool.not_eq_true',
    Bool.or_eq_false_iff, beq_eq_false_iff_ne, ne_eq] at h
  rcases fin3_cases r with rfl | rfl | rfl <;> rcases fin3_cases c with rfl | rfl | rfl <;>
    simp [h]

/-! ## The invariant of reachable games -/

theorem Inv_NewGame (creator : User) (gameID : Int) : Inv (NewGame (some creator) gameID) := by
  refine ⟨⟨creator, rfl⟩, ?_, le_refl _, ?_, ?_⟩
  · intro _
    refine ⟨rfl, ?_⟩
    intro i j
    rcases fin3_cases i with rfl | rfl | rfl <;> rcases fin3_cases j with rfl | rfl | rfl <;> rfl
  · show (1 : Int) ≤ _
    omega
  · intro k hk h
    have hw := hasLineOf_win _ k hk h
    have : checkForWin (NewGame (some creator) gameID) = false := rfl
    rw [this] at hw
    cases hw

theorem Inv_bindGuest (game : TicTacToeGame) (query : CallbackQuery) (s : User)
    (hs : query.From = some s) (h : Inv game) : Inv (bindGuest game query) := by
  refine ⟨h.creator, ?_, h.turnLo, h.turnHi, h.lines⟩
  intro hnone
  simp [bindGuest, hs] at hnone

theorem holder_bound (game : TicTacToeGame) (p : User) (h : Inv game)
    (hp : playerAt game (goMod game.CurrentTurn 2) = .ok (some p)) :
    game.Players.e1 ≠ none := by
  intro hnone
  have ht := (h.fresh hnone).1
  rw [ht] at hp
  have : playerAt game (goMod 1 2) = .ok game.Players.e1 := by
    unfold playerAt
    rfl
  rw [this, hnone] at hp
  cases hp

theorem mark_ne_Null (game : TicTacToeGame) (h : Inv game) :
    goMod game.CurrentTurn 2 ≠ Null := by
  have := goMod_two_cases game.CurrentTurn (by have := h.turnLo; omega)
  unfold Null
  omega

theorem Inv_placeMark (game : TicTacToeGame) (r c : Fin 3) (p : User) (h : Inv game)
    (hp : playerAt game (goMod game.CurrentTurn 2) = .ok (some p))
    (hcell : cell game r c = Null) : Inv (placeMark game r c) := by
  have hocc := occupied_setCell game r c _ hcell (mark_ne_Null game h)
  refine ⟨h.creator, ?_, h.turnLo, ?_, ?_⟩
  · intro hnone
    exact absurd hnone (holder_bound game p h hp)
  · show game.CurrentTurn
      ≤ ((occupied (setCell game r c (goMod game.CurrentTurn 2)) : Nat) : Int) + 1
    rw [hocc]
    have := h.turnHi
    push_cast
    omega
  · intro k hk hline
    rcases hasLineOf_setCell game r c _ k hline with hkv | hold
    · exact hkv
    · exact h.lines k hk hold

theorem Inv_nextTurn (game : TicTacToeGame) (r c : Fin 3) (p : User) (h : Inv game)
    (hp : playerAt game (goMod game.CurrentTurn 2) = .ok (some p))
    (hcell : cell game r c = Null) (hw : checkForWin (placeMark game r c) = false) :
    Inv (nextTurn (placeMark game r c)) := by
  have hocc := occupied_setCell game r c _ hcell (mark_ne_Null game h)
  have h9 := occupied_le_nine (placeMark game r c)
  have hlo := h.turnLo
  have hhi := h.turnHi
  have hwrap : wrapInt (game.CurrentTurn + 1) = game.CurrentTurn + 1 := by
    apply wrapInt_id
    · unfold minInt; omega
    · unfold maxInt
      unfold placeMark at h9
      rw [hocc] at h9
      omega
  refine ⟨h.creator, ?_, ?_, ?_, ?_⟩
  · intro hnone
    exact absurd hnone (holder_bound game p h hp)
  · show 1 ≤ wrapInt (game.CurrentTurn + 1)
    rw [hwrap]; omega
  · show wrapInt (game.CurrentTurn + 1)
      ≤ ((occupied (setCell game r c (goMod game.CurrentTurn 2)) : Nat) : Int) + 1
    rw [hwrap, hocc]
    push_cast
    omega
  · intro k hk hline
    have : checkForWin (placeMark game r c) = true := hasLineOf_win _ k hk hline
    rw [hw] at this
    cases this

theorem Inv_playCell (game : TicTacToeGame) (query : CallbackQuery) (p : User) (h : Inv game)
    (hp : playerAt game (goMod game.CurrentTurn 2) = .ok (some p)) :
    Inv (playCell game query).game := by
  rcases playCell_cases game query with he | ⟨r, c, _, _, _, he⟩
    | ⟨r, c, _, _, hcell, _, he⟩ | ⟨r, c, _, _, hcell, hw, _, he⟩
  · rw [he]; exact h
  · rw [he]; exact h
  · rw [he]; exact Inv_placeMark game r c p h hp hcell
  · rw [he]; exact Inv_nextTurn game r c p h hp hcell hw

theorem Inv_checkTurn (game : TicTacToeGame) (query : CallbackQuery) (h : Inv game) :
    Inv (checkTurn game query).game := by
  rcases checkTurn_cases game query with ⟨e, he⟩ | he | ⟨p, s, hp, _, _, he⟩
  · rw [he]; exact h
  · rw [he]; exact h
  · rw [he]; exact Inv_playCell game query p h hp

theorem Inv_ProcessMove (game : TicTacToeGame) (query : CallbackQuery) (h : Inv game) :
    Inv (ProcessMove game query).game := by
  rcases ProcessMove_cases game query with ⟨e, he⟩ | ⟨_, he⟩ | ⟨s, c, _, hs, _, _, he⟩
  · rw [he]; exact h
  · rw [he]; exact Inv_checkTurn game query h
  · rw [he]; exact Inv_checkTurn _ query (Inv_bindGuest game query s hs h)

theorem Reachable.inv {game : TicTacToeGame} (h : Reachable game) : Inv game := by
  induction h with
  | init creator gameID => exact Inv_NewGame creator gameID
  | step query _ ih => exact Inv_ProcessMove _ query ih

/-! ## `ProcessMove` on the paths that do not panic -/

theorem ProcessMove_bound (game : TicTacToeGame) (query : CallbackQuery)
    (h1 : game.Players.e1 ≠ none) : ProcessMove game query = checkTurn game query := by
  unfold ProcessMove joinCondition
  rw [if_neg h1]
  rfl

theorem ProcessMove_creator (game : TicTacToeGame) (query : CallbackQuery) (s p0 : User)
    (h1 : game.Players.e1 = none) (hs : query.From = some s) (h0 : game.Players.e0 = some p0)
    (hid : s.ID = p0.ID) : ProcessMove game query = checkTurn game query := by
  have hb : (s.ID != p0.ID) = false := by simpa using hid
  unfold ProcessMove joinCondition
  rw [if_pos h1]
  simp [deref, bind, Except.bind, pure, Except.pure, hb, hs, h0]

theorem ProcessMove_join (game : TicTacToeGame) (query : CallbackQuery) (s p0 : User)
    (h1 : game.Players.e1 = none) (hs : query.From = some s) (h0 : game.Players.e0 = some p0)
    (hid : s.ID ≠ p0.ID) :
    ProcessMove game query = checkTurn (bindGuest game query) query := by
  have hb : (s.ID != p0.ID) = true := by simpa using hid
  unfold ProcessMove joinCondition
  rw [if_pos h1]
  simp [deref, bind, Except.bind, pure, Except.pure, hb, hs, h0, bindGuest]

theorem checkTurn_pass (game : TicTacToeGame) (query : CallbackQuery) (p s : User)
    (hp : playerAt game (goMod game.CurrentTurn 2) = .ok (some p)) (hs : query.From = some s)
    (hid : p.ID = s.ID) : checkTurn game query = playCell game query := by
  have hb : (p.ID != s.ID) = false := by simpa using hid
  unfold checkTurn notYourTurn
  simp [deref, bind, Except.bind, pure, Except.pure, hb, hs, hp]

theorem checkTurn_reject (game : TicTacToeGame) (query : CallbackQuery) (p s : User)
    (hp : playerAt game (goMod game.CurrentTurn 2) = .ok (some p)) (hs : query.From = some s)
    (hid : p.ID ≠ s.ID) :
    checkTurn game query = .ret game (NewCallback query.ID "not your turn!!") := by
  have hb : (p.ID != s.ID) = true := by simpa using hid
  unfold checkTurn notYourTurn
  simp [deref, bind, Except.bind, pure, Except.pure, hb, hs, hp]

theorem playCell_inRange (game : TicTacToeGame) (query : CallbackQuery) (gid : Int)
    (r c : Fin 3) (htoken : Sscanf query.Data = (gid, (r.val : Int) + 1, (c.val : Int) + 1)) :
    playCell game query =
      if cell game r c = Null then
        if checkForWin (placeMark game r c) = true then
          .ret (placeMark game r c) (NewCallback query.ID "")
        else if checkForTie (placeMark game r c) = true then
          .ret (placeMark game r c) (NewCallback query.ID "")
        else .ret (nextTurn (placeMark game r c)) (NewCallback query.ID "")
      else .ret game (NewCallback query.ID "space occupied") := by
  unfold playCell
  rw [htoken]
  simp only [idx3_val]
  rfl

theorem bindGuest_turn (game : TicTacToeGame) (query : CallbackQuery) (s : User)
    (hs : query.From = some s) (hturn : goMod game.CurrentTurn 2 = 1) :
    playerAt (bindGuest game query) (goMod (bindGuest game query).CurrentTurn 2)
      = .ok (some s) := by
  show playerAt (bindGuest game query) (goMod game.CurrentTurn 2) = _
  rw [hturn]
  unfold playerAt bindGuest
  simp [idx2, Arr2.get, hs]

theorem playerAt_of_Inv (game : TicTacToeGame) (h : Inv game) (h1 : game.Players.e1 ≠ none) :
    ∃ p, playerAt game (goMod game.CurrentTurn 2) = .ok (some p) := by
  obtain ⟨p0, h0⟩ := h.creator
  obtain ⟨p1, hp1⟩ := Option.ne_none_iff_exists'.mp h1
  rcases goMod_two_cases game.CurrentTurn (by have := h.turnLo; omega) with hm | hm
  · exact ⟨p0, by rw [hm]; simp [playerAt, idx2, Arr2.get, h0]⟩
  · exact ⟨p1, by rw [hm]; simp [playerAt, idx2, Arr2.get, hp1]⟩

theorem Reachable.playAll {game : TicTacToeGame} (h : Reachable game)
    (queries : List CallbackQuery) : Reachable (playAll game queries) := by
  induction queries generalizing game with
  | nil => exact h
  | cons query rest ih => exact ih (Reachable.step query h)

theorem ReachableWith.reachable {game : TicTacToeGame} {w : Option User}
    (h : ReachableWith game w) : Reachable game := by
  induction h with
  | init creator gameID => exact Reachable.init creator gameID
  | step query _ ih => exact Reachable.step query ih

theorem idx2_some (x : Int) (k : Fin 2) (h : idx2 x = some k) :
    (k = 0 ∧ x = 0) ∨ (k = 1 ∧ x = 1) := by
  unfold idx2 at h
  split at h
  · left; exact ⟨(Option.some.inj h).symm, by assumption⟩
  · split at h
    · right; exact ⟨(Option.some.inj h).symm, by assumption⟩
    · cases h

theorem playerAt_some (game : TicTacToeGame) (x : Int) (p : User)
    (h : playerAt game x = .ok (some p)) :
    ∃ slot, idx2 x = some slot ∧ game.Players.get slot = some p := by
  unfold playerAt at h
  cases hk : idx2 x with
  | none => rw [hk] at h; cases h
  | some k =>
    rw [hk] at h
    injection h with h
    exact ⟨k, rfl, h⟩

theorem playCell_accept (game : TicTacToeGame) (query : CallbackQuery) (gid : Int)
    (r c : Fin 3) (htoken : Sscanf query.Data = (gid, (r.val : Int) + 1, (c.val : Int) + 1))
    (hempty : cell game r c = Null) :
    ∃ game', playCell game query = .ret game' (NewCallback query.ID "")
      ∧ (∀ i j, cell game' i j
          = if i = r ∧ j = c then goMod game.CurrentTurn 2 else cell game i j)
      ∧ game'.Players = game.Players ∧ game'.GameID = game.GameID
      ∧ (if checkForWin game' = false ∧ checkForTie game' = false
          then game'.CurrentTurn = wrapInt (game.CurrentTurn + 1)
          else game'.CurrentTurn = game.CurrentTurn) := by
  rw [playCell_inRange game query gid r c htoken, if_pos hempty]
  have hcells : ∀ i j, cell (placeMark game r c) i j
      = if i = r ∧ j = c then goMod game.CurrentTurn 2 else cell game i j :=
    fun i j => cell_setCell game r c i j _
  by_cases hw : checkForWin (placeMark game r c) = true
  · rw [if_pos hw]
    refine ⟨_, rfl, hcells, rfl, rfl, ?_⟩
    rw [if_neg (by rw [hw]; simp)]
    rfl
  · rw [if_neg hw]
    by_cases ht : checkForTie (placeMark game r c) = true
    · rw [if_pos ht]
      refine ⟨_, rfl, hcells, rfl, rfl, ?_⟩
      rw [if_neg (by rw [ht]; simp)]
      rfl
    · rw [if_neg ht]
      refine ⟨_, rfl, hcells, rfl, rfl, ?_⟩
      have hw2 : checkForWin (nextTurn (placeMark game r c)) = false := by
        simpa using hw
      have ht2 : checkForTie (nextTurn (placeMark game r c)) = false := by
        simpa using ht
      rw [if_pos ⟨hw2, ht2⟩]
      rfl

/-! ## Behaviour after a win -/

theorem won_frozen (game : TicTacToeGame) (query : CallbackQuery) (h : Inv game)
    (hwin : checkForWin game = true) :
    (ProcessMove game query).game.Players = game.Players
      ∧ (ProcessMove game query).game.CurrentTurn = game.CurrentTurn
      ∧ checkForWin (ProcessMove game query).game = true := by
  have h1 : game.Players.e1 ≠ none := by
    intro hnone
    have hall := (h.fresh hnone).2
    obtain ⟨k, hk, l, _, hline⟩ := win_hasLineOf game hwin
    have := hline.1
    unfold markAt at this
    rw [hall] at this
    exact hk this.symm
  rw [ProcessMove_bound game query h1]
  rcases checkTurn_cases game query with ⟨e, he⟩ | he | ⟨p, s, _, _, _, he⟩
  · rw [he]; exact ⟨rfl, rfl, hwin⟩
  · rw [he]; exact ⟨rfl, rfl, hwin⟩
  · rw [he]
    rcases playCell_cases game query with hc | ⟨r, c, _, _, _, hc⟩
      | ⟨r, c, _, _, hcell, _, hc⟩ | ⟨r, c, _, _, hcell, hw, _, hc⟩
    · rw [hc]; exact ⟨rfl, rfl, hwin⟩
    · rw [hc]; exact ⟨rfl, rfl, hwin⟩
    · rw [hc]; exact ⟨rfl, rfl, win_setCell game r c _ hwin hcell⟩
    · have := win_setCell game r c (goMod game.CurrentTurn 2) hwin hcell
      unfold placeMark at hw
      rw [hw] at this
      cases this

theorem winning_move (game : TicTacToeGame) (query : CallbackQuery)
    (hno : checkForWin game = false) (hwin : checkForWin (ProcessMove game query).game = true) :
    ∃ m p, query.From = some m
      ∧ playerAt (ProcessMove game query).game
          (goMod (ProcessMove game query).game.CurrentTurn 2) = .ok (some p)
      ∧ m.ID = p.ID := by
  have key : ∀ g : TicTacToeGame, checkForWin g = false →
      checkForWin (checkTurn g query).game = true →
      ∃ m p, query.From = some m
        ∧ playerAt (checkTurn g query).game (goMod (checkTurn g query).game.CurrentTurn 2)
            = .ok (some p)
        ∧ m.ID = p.ID := by
    intro g hg hw
    rcases checkTurn_cases g query with ⟨e, he⟩ | he | ⟨p, s, hp, hs, hid, he⟩
    · rw [he] at hw; rw [show (Outcome.panic g e).game = g from rfl, hg] at hw; cases hw
    · rw [he] at hw
      rw [show (Outcome.ret g (NewCallback query.ID "not your turn!!")).game = g from rfl, hg] at hw
      cases hw
    · rw [he] at hw ⊢
      rcases playCell_cases g query with hc | ⟨r, c, _, _, _, hc⟩ | ⟨r, c, _, _, _, _, hc⟩
        | ⟨r, c, _, _, _, hnw, _, hc⟩
      · rw [hc] at hw; rw [show (Outcome.panic g .indexOutOfRange).game = g from rfl, hg] at hw
        cases hw
      · rw [hc] at hw
        rw [show (Outcome.ret g (NewCallback query.ID "space occupied")).game = g from rfl,
          hg] at hw
        cases hw
      · rw [hc]
        exact ⟨s, p, hs, hp, hid.symm⟩
      · rw [hc] at hw
        have : checkForWin (nextTurn (placeMark g r c)) = checkForWin (placeMark g r c) := rfl
        rw [show (Outcome.ret (nextTurn (placeMark g r c)) (NewCallback query.ID "")).game
          = nextTurn (placeMark g r c) from rfl, this, hnw] at hw
        cases hw
  rcases ProcessMove_cases game query with ⟨e, he⟩ | ⟨_, he⟩ | ⟨s, c, _, _, _, _, he⟩
  · rw [he] at hwin; rw [show (Outcome.panic game e).game = game from rfl, hno] at hwin
    cases hwin
  · rw [he] at hwin ⊢
    exact key game hno hwin
  · rw [he] at hwin ⊢
    exact key (bindGuest game query) hno hwin

theorem ReachableWith.mover {game : TicTacToeGame} {w : Option User}
    (h : ReachableWith game w) :
    (checkForWin game = false → w = none)
      ∧ (checkForWin game = true → ∃ m p, w = some m
          ∧ playerAt game (goMod game.CurrentTurn 2) = .ok (some p) ∧ m.ID = p.ID) := by
  induction h with
  | init creator gameID =>
    refine ⟨fun _ => rfl, fun hw => ?_⟩
    have : checkForWin (NewGame (some creator) gameID) = false := rfl
    rw [this] at hw
    cases hw
  | @step game w query hreach ih =>
    have hinv := hreach.reachable.inv
    cases hwin : checkForWin game with
    | true =>
      obtain ⟨hP, hT, hW⟩ := won_frozen game query hinv hwin
      obtain ⟨m, p, hm, hp, hid⟩ := ih.2 hwin
      have hcond : ¬ (true = false ∧ checkForWin (ProcessMove game query).game = true) := by
        simp
      rw [if_neg hcond]
      refine ⟨fun hf => ?_, fun _ => ⟨m, p, hm, ?_, hid⟩⟩
      · rw [hW] at hf; cases hf
      · rw [hT]
        unfold playerAt at hp ⊢
        rw [hP]
        exact hp
    | false =>
      have hw0 := ih.1 hwin
      cases hwin2 : checkForWin (ProcessMove game query).game with
      | true =>
        rw [if_pos ⟨rfl, rfl⟩]
        refine ⟨fun hf => (by cases hf), fun _ => ?_⟩
        obtain ⟨m, p, hm, hp, hid⟩ := winning_move game query hwin hwin2
        exact ⟨m, p, hm, hp, hid⟩
      | false =>
        have hcond : ¬ (false = false ∧ false = true) := by simp
        rw [if_neg hcond]
        exact ⟨fun _ => hw0, fun hf => by cases hf⟩

/-! ## The claims -/

/-- Claim C1 does not hold of the code: `ProcessMove` has no check for a game that is
already won.  In the example game Bob has filled the top row (`checkForWin` is true and
the turn counter still selects him); his further move at the empty cell (3, 3) is
accepted with an empty notice and changes the Grid. -/
theorem winner_moves_after_win :
    Reachable wonGame
    ∧ wonGame
        = ⟨⟨⟨Guest, Guest, Guest⟩, ⟨Host, Host, Null⟩, ⟨Null, Null, Null⟩⟩,
            ⟨some alice, some bob⟩, 5, 1⟩
    ∧ checkForWin wonGame = true
    ∧ Sscanf (press bob "1_3_3").Data = (1, 3, 3)
    ∧ ProcessMove wonGame (press bob "1_3_3")
        = .ret ⟨⟨⟨Guest, Guest, Guest⟩, ⟨Host, Host, Null⟩, ⟨Null, Null, Guest⟩⟩,
            ⟨some alice, some bob⟩, 5, 1⟩ ⟨"q", ""⟩ :=
  ⟨(Reachable.init alice 1).playAll _, by decide, by decide, by decide, by decide⟩

/-- Claim C2 does not hold of the code: `ProcessMove` indexes the Grid with the decoded
row and col without a range check.  On `NewGame(Alice, 1)` the token "1_4_1" sent by Bob
(whose turn it is once he is bound to slot 1) ends in the panic "index out of range",
with slot 1 of the receiver already bound; after Bob has played (1, 1), the malformed
token "1_x" sent by Alice (whose turn it is) decodes to row 0, col 0 and panics too. -/
theorem out_of_range_token_panics :
    Sscanf "1_4_1" = (1, 4, 1)
    ∧ ProcessMove (NewGame (some alice) 1) (press bob "1_4_1")
        = .panic ⟨⟨⟨Null, Null, Null⟩, ⟨Null, Null, Null⟩, ⟨Null, Null, Null⟩⟩,
            ⟨some alice, some bob⟩, 1, 1⟩ .indexOutOfRange
    ∧ Sscanf "1_x" = (1, 0, 0)
    ∧ ProcessMove (playAll (NewGame (some alice) 1) [press bob "1_1_1"]) (press alice "1_x")
        = .panic (playAll (NewGame (some alice) 1) [press bob "1_1_1"]) .indexOutOfRange := by
  decide

/-- Claim C3 does not hold of the code: on a game freshly returned by `NewGame` the turn
counter selects slot 1, which is still nil, and a move by the creator does not bind it;
the turn check `game.Players[game.CurrentTurn%2].ID` then dereferences nil.  The call
panics for every creator, game id, query id and token, in particular for Alice pressing
(1, 1) on `NewGame(Alice, 1)`. -/
theorem creator_first_move_panics :
    ProcessMove (NewGame (some alice) 1) (press alice "1_1_1")
        = .panic (NewGame (some alice) 1) .nilDereference
    ∧ ∀ (creator : User) (gameID : Int) (qid data : String),
        ProcessMove (NewGame (some creator) gameID) ⟨qid, some creator, data⟩
          = .panic (NewGame (some creator) gameID) .nilDereference := by
  refine ⟨by decide, ?_⟩
  intro creator gameID qid data
  rw [ProcessMove_creator (NewGame (some creator) gameID) ⟨qid, some creator, data⟩ creator
    creator rfl rfl rfl rfl]
  rfl

/-- Claim C4.  For a game reachable from `NewGame` by `ProcessMove` calls and any query
(in particular any query with row, col in 1..3): if `ProcessMove` returns the notice
"not your turn!!" or "space occupied", the game after the call (Grid, both Players
slots, CurrentTurn, GameID) equals the game before the call. -/
theorem rejected_move_changes_nothing (game game' : TicTacToeGame) (query : CallbackQuery)
    (answer : CallbackConfig) (h : Reachable game)
    (hret : ProcessMove game query = .ret game' answer)
    (hfail : answer.Text = "not your turn!!" ∨ answer.Text = "space occupied") :
    game' = game := by
  have hacc : ∀ g2 : TicTacToeGame,
      Outcome.ret g2 (NewCallback query.ID "") = Outcome.ret game' answer → False := by
    intro g2 he
    injection he with _ ha
    rw [← ha] at hfail
    have hnone : ¬ (("" : String) = "not your turn!!" ∨ ("" : String) = "space occupied") := by
      decide
    exact hnone hfail
  have hplay : ∀ g : TicTacToeGame, playCell g query = .ret game' answer →
      game' = g ∧ ∃ r c, cell g r c ≠ Null := by
    intro g hp
    rcases playCell_cases g query with hc | ⟨r, c, _, _, hcell, hc⟩ | ⟨_, _, _, _, _, _, hc⟩
      | ⟨_, _, _, _, _, _, _, hc⟩
    · rw [hc] at hp; cases hp
    · rw [hc] at hp
      injection hp with hg _
      exact ⟨hg.symm, r, c, hcell⟩
    · rw [hc] at hp; exact (hacc _ hp).elim
    · rw [hc] at hp; exact (hacc _ hp).elim
  rcases ProcessMove_cases game query with ⟨e, he⟩ | ⟨_, he⟩ | ⟨s, c, h1, hs, _, _, he⟩
  · rw [he] at hret; cases hret
  · rw [he] at hret
    rcases checkTurn_cases game query with ⟨e, hc⟩ | hc | ⟨_, _, _, _, _, hc⟩
    · rw [hc] at hret; cases hret
    · rw [hc] at hret
      injection hret with hg _
      exact hg.symm
    · rw [hc] at hret
      exact (hplay game hret).1
  · exfalso
    obtain ⟨hturn, hall⟩ := h.inv.fresh h1
    have hm : goMod game.CurrentTurn 2 = 1 := by rw [hturn]; rfl
    rw [he, checkTurn_pass _ query s s (bindGuest_turn game query s hs hm) hs rfl] at hret
    obtain ⟨_, r, c, hcell⟩ := hplay _ hret
    exact hcell (hall r c)

/-- Instance of claim C4: after Bob has played (1, 1), Alice presses the same cell and is
told "space occupied". -/
theorem rejected_move_changes_nothing_witness :
    Reachable (playAll (NewGame (some alice) 1) [press bob "1_1_1"])
    ∧ ProcessMove (playAll (NewGame (some alice) 1) [press bob "1_1_1"]) (press alice "1_1_1")
        = .ret ⟨⟨⟨Guest, Null, Null⟩, ⟨Null, Null, Null⟩, ⟨Null, Null, Null⟩⟩,
            ⟨some alice, some bob⟩, 2, 1⟩ ⟨"q", "space occupied"⟩
    ∧ (⟨⟨⟨Guest, Null, Null⟩, ⟨Null, Null, Null⟩, ⟨Null, Null, Null⟩⟩,
            ⟨some alice, some bob⟩, 2, 1⟩ : TicTacToeGame)
        = playAll (NewGame (some alice) 1) [press bob "1_1_1"] :=
  have hreach := (Reachable.init alice 1).playAll [press bob "1_1_1"]
  have hret : ProcessMove (playAll (NewGame (some alice) 1) [press bob "1_1_1"])
      (press alice "1_1_1")
        = .ret ⟨⟨⟨Guest, Null, Null⟩, ⟨Null, Null, Null⟩, ⟨Null, Null, Null⟩⟩,
            ⟨some alice, some bob⟩, 2, 1⟩ ⟨"q", "space occupied"⟩ := by decide
  ⟨hreach, hret, rejected_move_changes_nothing _ _ _ _ hreach hret (Or.inr rfl)⟩

/-- Claim C5.  Let the acting user be the player selected by the parity of the turn
counter (bound to slot `CurrentTurn % 2` already, or slot 1 is selected and still empty
and the user is not the creator, so that the call binds them to it), and let the
target cell (row, col in 1..3) be empty.  Then `ProcessMove` returns with an empty
notice, the target cell holds the mark of the acting player's slot (`Host` for slot 0,
`Guest` for slot 1), no other cell changes, `CurrentTurn` is incremented (Go `int`
increment, which is `+ 1` below the largest `int`) if the resulting board has no winning
line and is not full and is unchanged otherwise, and `GameID` and slot 0 are unchanged. -/
theorem accepted_move (game : TicTacToeGame) (query : CallbackQuery) (sender : User)
    (gid : Int) (r c : Fin 3)
    (hfrom : query.From = some sender)
    (htoken : Sscanf query.Data = (gid, (r.val : Int) + 1, (c.val : Int) + 1))
    (hturn : (∃ p, playerAt game (goMod game.CurrentTurn 2) = .ok (some p) ∧ p.ID = sender.ID)
      ∨ (goMod game.CurrentTurn 2 = 1 ∧ game.Players.e1 = none
          ∧ ∃ p0, game.Players.e0 = some p0 ∧ sender.ID ≠ p0.ID))
    (hempty : cell game r c = Null) :
    ∃ game' slot,
      ProcessMove game query = .ret game' (NewCallback query.ID "")
      ∧ idx2 (goMod game.CurrentTurn 2) = some slot
      ∧ (∃ p, game'.Players.get slot = some p ∧ p.ID = sender.ID)
      ∧ cell game' r c = (if slot = 0 then Host else Guest)
      ∧ (∀ i j, ¬ (i = r ∧ j = c) → cell game' i j = cell game i j)
      ∧ (if checkForWin game' = false ∧ checkForTie game' = false
          then game'.CurrentTurn = wrapInt (game.CurrentTurn + 1)
          else game'.CurrentTurn = game.CurrentTurn)
      ∧ (checkForWin game' = false → checkForTie game' = false →
          minInt ≤ game.CurrentTurn → game.CurrentTurn < maxInt →
          game'.CurrentTurn = game.CurrentTurn + 1)
      ∧ game'.GameID = game.GameID
      ∧ game'.Players.e0 = game.Players.e0
      ∧ game'.Players.e1
          = (if game.Players.e1 = none ∧ goMod game.CurrentTurn 2 = 1 then some sender
              else game.Players.e1) := by
  have hmark : ∀ slot : Fin 2, idx2 (goMod game.CurrentTurn 2) = some slot →
      goMod game.CurrentTurn 2 = (if slot = 0 then Host else Guest) := by
    intro slot hs
    rcases idx2_some _ _ hs with ⟨h1, h2⟩ | ⟨h1, h2⟩
    · rw [h1, h2]; rfl
    · rw [h1, h2]; rfl
  have hplus : ∀ g2 : TicTacToeGame,
      (if checkForWin g2 = false ∧ checkForTie g2 = false
        then g2.CurrentTurn = wrapInt (game.CurrentTurn + 1)
        else g2.CurrentTurn = game.CurrentTurn) →
      checkForWin g2 = false → checkForTie g2 = false →
      minInt ≤ game.CurrentTurn → game.CurrentTurn < maxInt →
      g2.CurrentTurn = game.CurrentTurn + 1 := by
    intro g2 hif hw ht hlo hhi
    rw [if_pos ⟨hw, ht⟩] at hif
    rw [hif]
    apply wrapInt_id
    · unfold minInt at *; omega
    · unfold maxInt at *; omega
  rcases hturn with ⟨p, hp, hid⟩ | ⟨hm, h1, p0, h0, hne⟩
  · obtain ⟨slot, hslot, hget⟩ := playerAt_some game _ p hp
    have hflow : ProcessMove game query = checkTurn game query := by
      by_cases h1 : game.Players.e1 = none
      · rcases idx2_some _ _ hslot with ⟨hk, _⟩ | ⟨hk, _⟩
        · rw [hk] at hget
          exact ProcessMove_creator game query sender p h1 hfrom hget hid.symm
        · rw [hk] at hget
          rw [show game.Players.get 1 = game.Players.e1 from rfl, h1] at hget
          cases hget
      · exact ProcessMove_bound game query h1
    obtain ⟨game', hret, hcells, hP, hG, hT⟩ := playCell_accept game query gid r c htoken hempty
    rw [← checkTurn_pass game query p sender hp hfrom hid, ← hflow] at hret
    refine ⟨game', slot, hret, hslot, ⟨p, by rw [hP]; exact hget, hid⟩, ?_, ?_, hT,
      hplus game' hT, hG, by rw [hP], ?_⟩
    · rw [hcells, if_pos ⟨rfl, rfl⟩]
      exact hmark slot hslot
    · intro i j hij
      rw [hcells, if_neg hij]
    · rw [hP]
      have hcond : ¬ (game.Players.e1 = none ∧ goMod game.CurrentTurn 2 = 1) := by
        rintro ⟨h1, hm⟩
        rw [hm] at hslot
        have hk : slot = 1 := by
          rcases idx2_some _ _ hslot with ⟨_, h⟩ | ⟨h, _⟩
          · cases h
          · exact h
        rw [hk, show game.Players.get 1 = game.Players.e1 from rfl, h1] at hget
        cases hget
      rw [if_neg hcond]
  · have hflow := ProcessMove_join game query sender p0 h1 hfrom h0 hne
    have hp := bindGuest_turn game query sender hfrom hm
    obtain ⟨game', hret, hcells, hP, hG, hT⟩ :=
      playCell_accept (bindGuest game query) query gid r c htoken hempty
    rw [← checkTurn_pass _ query sender sender hp hfrom rfl, ← hflow] at hret
    have hslot : idx2 (goMod game.CurrentTurn 2) = some 1 := by rw [hm]; rfl
    refine ⟨game', 1, hret, hslot, ⟨sender, ?_, rfl⟩, ?_, ?_, hT, hplus game' hT, hG,
      ?_, ?_⟩
    · rw [hP]
      show query.From = some sender
      exact hfrom
    · rw [hcells, if_pos ⟨rfl, rfl⟩]
      exact hmark 1 hslot
    · intro i j hij
      rw [hcells, if_neg hij]
      rfl
    · rw [hP]; rfl
    · rw [hP, if_pos ⟨h1, hm⟩]
      exact hfrom

/-- Instance of claim C5 (scenario 2): on `NewGame(Alice, 1)` Bob plays (1, 1); slot 1 is
bound to Bob, his mark `Guest` is placed, the turn counter becomes 2 and
`GetMessageText` reports the turn of Alice. -/
theorem accepted_move_witness :
    (press bob "1_1_1").From = some bob
    ∧ Sscanf (press bob "1_1_1").Data
        = (1, (((0 : Fin 3)).val : Int) + 1, (((0 : Fin 3)).val : Int) + 1)
    ∧ (goMod (NewGame (some alice) 1).CurrentTurn 2 = 1
        ∧ (NewGame (some alice) 1).Players.e1 = none
        ∧ ∃ p0, (NewGame (some alice) 1).Players.e0 = some p0 ∧ bob.ID ≠ p0.ID)
    ∧ cell (NewGame (some alice) 1) 0 0 = Null
    ∧ (∃ game' slot,
        ProcessMove (NewGame (some alice) 1) (press bob "1_1_1")
          = .ret game' (NewCallback (press bob "1_1_1").ID "")
        ∧ idx2 (goMod (NewGame (some alice) 1).CurrentTurn 2) = some slot
        ∧ (∃ p, game'.Players.get slot = some p ∧ p.ID = bob.ID)
        ∧ cell game' 0 0 = (if slot = 0 then Host else Guest)
        ∧ (∀ i j, ¬ (i = 0 ∧ j = 0) → cell game' i j = cell (NewGame (some alice) 1) i j)
        ∧ (if checkForWin game' = false ∧ checkForTie game' = false
            then game'.CurrentTurn = wrapInt ((NewGame (some alice) 1).CurrentTurn + 1)
            else game'.CurrentTurn = (NewGame (some alice) 1).CurrentTurn)
        ∧ (checkForWin game' = false → checkForTie game' = false →
            minInt ≤ (NewGame (some alice) 1).CurrentTurn →
            (NewGame (some alice) 1).CurrentTurn < maxInt →
            game'.CurrentTurn = (NewGame (some alice) 1).CurrentTurn + 1)
        ∧ game'.GameID = (NewGame (some alice) 1).GameID
        ∧ game'.Players.e0 = (NewGame (some alice) 1).Players.e0
        ∧ game'.Players.e1
            = (if (NewGame (some alice) 1).Players.e1 = none
                  ∧ goMod (NewGame (some alice) 1).CurrentTurn 2 = 1 then some bob
                else (NewGame (some alice) 1).Players.e1))
    ∧ ProcessMove (NewGame (some alice) 1) (press bob "1_1_1")
        = .ret ⟨⟨⟨Guest, Null, Null⟩, ⟨Null, Null, Null⟩, ⟨Null, Null, Null⟩⟩,
            ⟨some alice, some bob⟩, 2, 1⟩ ⟨"q", ""⟩
    ∧ GetMessageText ⟨⟨⟨Guest, Null, Null⟩, ⟨Null, Null, Null⟩, ⟨Null, Null, Null⟩⟩,
            ⟨some alice, some bob⟩, 2, 1⟩ = .ok "It's Alice's turn\n\nAlice vs Bob" :=
  have hturn : goMod (NewGame (some alice) 1).CurrentTurn 2 = 1
      ∧ (NewGame (some alice) 1).Players.e1 = none
      ∧ ∃ p0, (NewGame (some alice) 1).Players.e0 = some p0 ∧ bob.ID ≠ p0.ID :=
    ⟨by decide, rfl, alice, rfl, by decide⟩
  ⟨rfl, by decide, hturn, rfl,
    accepted_move (NewGame (some alice) 1) (press bob "1_1_1") bob 1 0 0 rfl (by decide)
      (Or.inr hturn) rfl,
    by decide, rfl⟩

/-- Claim C6.  In a game reachable from `NewGame` by `ProcessMove` calls whose board
contains a winning line, slot `CurrentTurn % 2` holds a player `p`, `GetMessageText`
names `p` as the winner, every filled line on the board consists of the mark
`gameSpace(CurrentTurn % 2)` (the mark of that slot), such a line exists, and the call
that produced the win was sent by the user with the ID of `p`. -/
theorem winner_attribution (game : TicTacToeGame) (w : Option User)
    (h : ReachableWith game w) (hwin : checkForWin game = true) :
    ∃ p p0 p1 m, playerAt game (goMod game.CurrentTurn 2) = .ok (some p)
      ∧ game.Players.e0 = some p0 ∧ game.Players.e1 = some p1
      ∧ GetMessageText game = .ok ("🎉 " ++ p.UserName ++ " wins! 🎉\n\n" ++ p0.UserName
          ++ " vs " ++ p1.UserName)
      ∧ (∀ k, k ≠ Null → hasLineOf game k → k = goMod game.CurrentTurn 2)
      ∧ hasLineOf game (goMod game.CurrentTurn 2)
      ∧ w = some m ∧ m.ID = p.ID := by
  have hinv := h.reachable.inv
  obtain ⟨m, p, hm, hp, hid⟩ := h.mover.2 hwin
  obtain ⟨p0, h0⟩ := hinv.creator
  have h1 := holder_bound game p hinv hp
  obtain ⟨p1, hp1⟩ := Option.ne_none_iff_exists'.mp h1
  obtain ⟨k, hk, hline⟩ := win_hasLineOf game hwin
  have hkm := hinv.lines k hk hline
  refine ⟨p, p0, p1, m, hp, h0, hp1, ?_, hinv.lines, hkm ▸ hline, hm, hid⟩
  unfold GetMessageText
  rw [if_neg h1, if_pos hwin, hp, h0, hp1]
  rfl

/-- Instance of claim C6: Bob wins the example game with the move at (1, 3). -/
theorem winner_attribution_witness :
    ReachableWith wonGame (some bob) ∧ checkForWin wonGame = true ∧
    ∃ p p0 p1 m, playerAt wonGame (goMod wonGame.CurrentTurn 2) = .ok (some p)
      ∧ wonGame.Players.e0 = some p0 ∧ wonGame.Players.e1 = some p1
      ∧ GetMessageText wonGame = .ok ("🎉 " ++ p.UserName ++ " wins! 🎉\n\n" ++ p0.UserName
          ++ " vs " ++ p1.UserName)
      ∧ (∀ k, k ≠ Null → hasLineOf wonGame k → k = goMod wonGame.CurrentTurn 2)
      ∧ hasLineOf wonGame (goMod wonGame.CurrentTurn 2)
      ∧ some bob = some m ∧ m.ID = p.ID :=
  have hreach : ReachableWith wonGame (some bob) :=
    ReachableWith.step (press bob "1_1_3")
      (ReachableWith.step (press alice "1_2_2")
        (ReachableWith.step (press bob "1_1_2")
          (ReachableWith.step (press alice "1_2_1")
            (ReachableWith.step (press bob "1_1_1") (ReachableWith.init alice 1)))))
  ⟨hreach, by decide, winner_attribution wonGame (some bob) hreach (by decide)⟩

/-- Claim C7.  In a game reachable from `NewGame` by `ProcessMove` calls whose board is
full and has no winning line, both slots are bound, `GetMessageText` reports the tie,
and every further `ProcessMove` by any user at any cell with row, col in 1..3 is
answered with "not your turn!!" or "space occupied" and leaves the game unchanged. -/
theorem tie_is_terminal (game : TicTacToeGame) (h : Reachable game)
    (hfull : checkForTie game = true) (hnowin : checkForWin game = false) :
    (∃ p0 p1, game.Players.e0 = some p0 ∧ game.Players.e1 = some p1
      ∧ GetMessageText game = .ok ("It's a tie!\n\n" ++ p0.UserName ++ " vs " ++ p1.UserName))
    ∧ ∀ (query : CallbackQuery) (sender : User) (gid row col : Int),
        query.From = some sender → Sscanf query.Data = (gid, row, col) →
        1 ≤ row → row ≤ 3 → 1 ≤ col → col ≤ 3 →
        ∃ answer, ProcessMove game query = .ret game answer
          ∧ (answer.Text = "not your turn!!" ∨ answer.Text = "space occupied") := by
  have hinv := h.inv
  have h1 : game.Players.e1 ≠ none := by
    intro hnone
    exact tie_cell game hfull 0 0 ((hinv.fresh hnone).2 0 0)
  obtain ⟨p0, h0⟩ := hinv.creator
  obtain ⟨p1, hp1⟩ := Option.ne_none_iff_exists'.mp h1
  constructor
  · refine ⟨p0, p1, h0, hp1, ?_⟩
    unfold GetMessageText
    rw [if_neg h1, hnowin, if_pos hfull, h0, hp1]
    rfl
  · intro query sender gid row col hfrom htoken hr1 hr3 hc1 hc3
    obtain ⟨r, hr⟩ := inRange_fin row hr1 hr3
    obtain ⟨c, hc⟩ := inRange_fin col hc1 hc3
    rw [hr, hc] at htoken
    obtain ⟨p, hp⟩ := playerAt_of_Inv game hinv h1
    rw [ProcessMove_bound game query h1]
    by_cases hid : p.ID = sender.ID
    · rw [checkTurn_pass game query p sender hp hfrom hid,
        playCell_inRange game query gid r c htoken, if_neg (tie_cell game hfull r c)]
      exact ⟨_, rfl, Or.inr rfl⟩
    · rw [checkTurn_reject game query p sender hp hfrom hid]
      exact ⟨_, rfl, Or.inl rfl⟩

/-- Instance of claim C7: the example game of nine moves without a line. -/
theorem tie_is_terminal_witness :
    Reachable tiedGame ∧ checkForTie tiedGame = true ∧ checkForWin tiedGame = false
    ∧ GetMessageText tiedGame = .ok "It's a tie!\n\nAlice vs Bob"
    ∧ (∃ answer, ProcessMove tiedGame (press bob "1_2_2") = .ret tiedGame answer
        ∧ (answer.Text = "not your turn!!" ∨ answer.Text = "space occupied"))
    ∧ (∃ answer, ProcessMove tiedGame (press alice "1_2_2") = .ret tiedGame answer
        ∧ (answer.Text = "not your turn!!" ∨ answer.Text = "space occupied")) :=
  have hreach : Reachable tiedGame := (Reachable.init alice 1).playAll _
  have hthm := tie_is_terminal tiedGame hreach (by decide) (by decide)
  ⟨hreach, by decide, by decide, rfl,
    hthm.2 (press bob "1_2_2") bob 1 2 2 rfl (by decide) (by decide) (by decide) (by decide)
      (by decide),
    hthm.2 (press alice "1_2_2") alice 1 2 2 rfl (by decide) (by decide) (by decide) (by decide)
      (by decide)⟩

/-- Claim C8.  For every `int` id ≥ 0 and every r, c in 1..3, scanning with
`"%d_%d_%d"` the token printed with `"%d_%d_%d"` for (id, r, c) yields (id, r, c); and
for every game (whose `GameID` is an `int`) the button `GetKeyBoard` puts at grid
position (row, col) carries the symbol of the cell and the token printed for
(GameID, row+1, col+1), which scans to (GameID, row+1, col+1). -/
theorem move_token_roundtrip (game : TicTacToeGame) (row col : Fin 3) (id r c : Int)
    (hid : 0 ≤ id) (hidmax : id ≤ maxInt) (hr : 1 ≤ r ∧ r ≤ 3) (hc : 1 ≤ c ∧ c ≤ 3)
    (hgid : minInt ≤ game.GameID ∧ game.GameID ≤ maxInt) :
    Sscanf (Sprintf id r c) = (id, r, c) ∧
    ∃ btn, buttonAt (GetKeyBoard game) row col = some btn
      ∧ btn.Text = getSymbol (cell game row col)
      ∧ btn.CallbackData = Sprintf game.GameID ((row.val : Int) + 1) ((col.val : Int) + 1)
      ∧ Sscanf btn.CallbackData = (game.GameID, (row.val : Int) + 1, (col.val : Int) + 1) := by
  have hsmall : ∀ v : Int, 1 ≤ v ∧ v ≤ 3 → minInt ≤ v ∧ v ≤ maxInt := by
    intro v hv; unfold maxInt minInt; omega
  have hidmin : minInt ≤ id := by unfold minInt; omega
  refine ⟨Sscanf_Sprintf id r c ⟨hidmin, hidmax⟩ (hsmall r hr) (hsmall c hc), ?_⟩
  have hrow : 1 ≤ (row.val : Int) + 1 ∧ (row.val : Int) + 1 ≤ 3 := by omega
  have hcol : 1 ≤ (col.val : Int) + 1 ∧ (col.val : Int) + 1 ≤ 3 := by omega
  exact ⟨_, keyboard_button game row col, rfl, rfl,
    Sscanf_Sprintf game.GameID _ _ hgid (hsmall _ hrow) (hsmall _ hcol)⟩

/-- Instance of claim C8: the token of game 7 for cell (2, 3), and the button of the
centre cell of a new game with id 7. -/
theorem move_token_roundtrip_witness :
    Sscanf (Sprintf 7 2 3) = (7, 2, 3)
    ∧ Sprintf 7 2 3 = "7_2_3"
    ∧ ∃ btn, buttonAt (GetKeyBoard (NewGame (some alice) 7)) 1 1 = some btn
      ∧ btn.Text = getSymbol (cell (NewGame (some alice) 7) 1 1)
      ∧ btn.CallbackData = Sprintf 7 (((1 : Fin 3).val : Int) + 1) (((1 : Fin 3).val : Int) + 1)
      ∧ Sscanf btn.CallbackData
          = (7, (((1 : Fin 3).val : Int) + 1), (((1 : Fin 3).val : Int) + 1)) :=
  have hthm := move_token_roundtrip (NewGame (some alice) 7) 1 1 7 2 3 (by decide) (by decide)
    (by decide) (by decide) (by decide)
  ⟨hthm.1, by decide, hthm.2⟩

/-- Claim C9.  For every grid, `checkForWin` returns true exactly when one of the eight
lines (three rows, three columns, two diagonals) has three equal cells that are not
empty (`Null`). -/
theorem checkForWin_iff_winReference (game : TicTacToeGame) :
    checkForWin game = true ↔ winReference game :=
  checkForWin_spec game

/-- Claim C10.  In a game reachable from `NewGame` by any sequence of `ProcessMove`
calls the board never holds a line of the `Host` mark together with a line of the
`Guest` mark. -/
theorem at_most_one_winning_mark (game : TicTacToeGame) (h : Reachable game) :
    ¬ (hasLineOf game Host ∧ hasLineOf game Guest) := by
  rintro ⟨hH, hG⟩
  have h1 := h.inv.lines Host (by decide) hH
  have h2 := h.inv.lines Guest (by decide) hG
  rw [← h2] at h1
  revert h1
  decide

/-- Instance of claim C10: the example game in which Bob has filled the top row. -/
theorem at_most_one_winning_mark_witness :
    Reachable wonGame ∧ hasLineOf wonGame Guest
    ∧ ¬ (hasLineOf wonGame Host ∧ hasLineOf wonGame Guest) :=
  ⟨(Reachable.init alice 1).playAll _, by decide,
    at_most_one_winning_mark wonGame ((Reachable.init alice 1).playAll _)⟩

end TicTacToe
